import Mathlib

/-!
# ytdl: the format catalog, its attribute accessor and its comparator

A shallow embedding of `format.go` (package `ytdl`): the `Format` record, the
`FORMATS` table, `newFormat`, `Format.ValueForKey` and `Format.CompareKey`,
together with the part of Go's `strconv` package that `CompareKey` calls.

Conventions of the embedding:

* a Go `string` is its sequence of bytes (`len` and slicing count bytes);
* a Go `int` is a 64-bit two's-complement integer, held in `Int`, and
  arithmetic that can overflow is wrapped explicitly by `wrapInt`;
* a Go `map[string]interface{}` is an association list read by first match,
  and a `nil` map is `none`;
* an `interface{}` value is a `Value`;
* a run-time panic is an `Except.error`;
* where it matters which map object a `Format` refers to, the objects lie in
  a `Store` and a `FormatRef` holds the address of one.
-/

namespace Ytdl

/-! ## Go values -/

/-- Go strings are immutable byte sequences. -/
abbrev GoString := List UInt8

/-- The bytes of a string literal, as the Go compiler stores it (UTF-8). -/
def lit (s : String) : GoString := s.toUTF8.data.toList

/-- Dynamic values of type `interface{}`: the nil interface, an `int`, a
`string`, a `bool`, or a value of some other dynamic type. -/
inductive Value where
  | nil
  | int (n : Int)
  | str (s : GoString)
  | bool (b : Bool)
  | other (typeId : Nat) (payload : Nat)
  deriving DecidableEq, Repr

/-- Run-time panics the embedded code can raise. -/
inductive Panic where
  | sliceBounds
  | typeAssertion
  deriving DecidableEq, Repr

deriving instance DecidableEq for Except

/-- Reduce an integer to the 64-bit two's-complement range. -/
def wrapInt (x : Int) : Int := (x + 2 ^ 63) % 2 ^ 64 - 2 ^ 63

/-- Go's `x - y` on `int`. -/
def subInt (x y : Int) : Int := wrapInt (x - y)

/-- Go's `-x` on `int`. -/
def negInt (x : Int) : Int := wrapInt (-x)

/-- Go's `s[lo:hi]` on a string: panics unless `0 ≤ lo ≤ hi ≤ len(s)`. -/
def slice (s : GoString) (lo hi : Int) : Except Panic GoString :=
  if 0 ≤ lo ∧ lo ≤ hi ∧ hi ≤ (s.length : Int) then
    .ok ((s.drop lo.toNat).take (hi.toNat - lo.toNat))
  else .error .sliceBounds

/-- The type assertion `v.(string)`. -/
def assertString : Value → Except Panic GoString
  | .str s => .ok s
  | _ => .error .typeAssertion

/-- The type assertion `v.(int)`. -/
def assertInt : Value → Except Panic Int
  | .int n => .ok n
  | _ => .error .typeAssertion

/-- A Go `map[string]interface{}` that is not nil. -/
abbrev GoMap := List (GoString × Value)

/-- The index expression `m[k]`: the zero value (nil interface) when absent. -/
def mapIndex (m : GoMap) (k : GoString) : Value := (m.lookup k).getD Value.nil

/-- The assignment `m[k] = v`. -/
def mapStore (m : GoMap) (k : GoString) (v : Value) : GoMap :=
  (k, v) :: m.filter (fun e => e.1 != k)

/-! ## `strconv.Atoi` (Go standard library, 64-bit `int`) -/

/-- The `Err` field of a `*strconv.NumError`. -/
inductive NumErr where
  | errSyntax
  | errRange
  deriving DecidableEq, Repr

def maxUint64 : Nat := 2 ^ 64 - 1

/-- The function `lower(c)` of strconv: `c | ('x' - 'X')`. -/
def lower (c : UInt8) : Nat := c.toNat ||| 0x20

/-- The digit switch in the loop of `ParseUint`, with `base0 = false`:
`none` is the `default` branch. -/
def digitOf (c : UInt8) : Option Nat :=
  if 0x30 ≤ c.toNat ∧ c.toNat ≤ 0x39 then some (c.toNat - 0x30)
  else if 0x61 ≤ lower c ∧ lower c ≤ 0x7a then some (lower c - 0x61 + 10)
  else none

/-- The loop of `ParseUint(s, 10, 64)` over the remaining bytes, `n` being the
accumulator: `cutoff = maxUint64/10 + 1`, `maxVal = 1<<64 - 1`. -/
def parseUintLoop : GoString → Nat → Nat × Option NumErr
  | [], n => (n, none)
  | c :: cs, n =>
    match digitOf c with
    | none => (0, some .errSyntax)
    | some d =>
      if d ≥ 10 then (0, some .errSyntax)
      else if n ≥ maxUint64 / 10 + 1 then (maxUint64, some .errRange)
      else
        let n10 := (n * 10) % 2 ^ 64
        let n1 := (n10 + d) % 2 ^ 64
        if n1 < n10 ∨ n1 > maxUint64 then (maxUint64, some .errRange)
        else parseUintLoop cs n1

/-- Go's `strconv.ParseUint(s, 10, 64)`. -/
def ParseUint (s : GoString) : Nat × Option NumErr :=
  if s = [] then (0, some .errSyntax) else parseUintLoop s 0

/-- Go's `strconv.ParseInt(s, 10, 0)` with `IntSize = 64`. -/
def ParseInt (s : GoString) : Int × Option NumErr :=
  match s with
  | [] => (0, some .errSyntax)
  | c :: rest =>
    let neg : Bool := c.toNat = 0x2d
    let body := if c.toNat = 0x2b ∨ c.toNat = 0x2d then rest else s
    let r := ParseUint body
    if r.2 = some .errSyntax then (0, some .errSyntax)
    else if !neg ∧ r.1 ≥ 2 ^ 63 then (2 ^ 63 - 1, some .errRange)
    else if neg ∧ r.1 > 2 ^ 63 then (-(2 ^ 63), some .errRange)
    else
      let n := wrapInt r.1
      (if neg then negInt n else n, none)

/-- Go's `strconv.Atoi(s)`, which "is equivalent to ParseInt(s, 10, 0),
converted to type int". -/
def Atoi (s : GoString) : Int × Option NumErr := ParseInt s

/-! ## `format.go` -/

/-- The type `FormatKey`, a string type. -/
abbrev FormatKey := GoString

def FormatExtensionKey : FormatKey := lit "ext"
def FormatResolutionKey : FormatKey := lit "res"
def FormatVideoEncodingKey : FormatKey := lit "videnc"
def FormatAudioEncodingKey : FormatKey := lit "audenc"
def FormatItagKey : FormatKey := lit "itag"
def FormatAudioBitrateKey : FormatKey := lit "audbr"

/-- The struct `Format`; the defaults are Go's zero values. -/
structure Format where
  Itag : Int := 0
  Extension : GoString := []
  Resolution : GoString := []
  VideoEncoding : GoString := []
  AudioEncoding : GoString := []
  AudioBitrate : Int := 0
  meta : Option GoMap := none
  deriving DecidableEq, Repr

/-- The method `Format.ValueForKey`. -/
def Format.ValueForKey (f : Format) (key : FormatKey) : Value :=
  if key = FormatItagKey then .int f.Itag
  else if key = FormatExtensionKey then .str f.Extension
  else if key = FormatResolutionKey then .str f.Resolution
  else if key = FormatVideoEncodingKey then .str f.VideoEncoding
  else if key = FormatAudioEncodingKey then .str f.AudioEncoding
  else if key = FormatAudioBitrateKey then .int f.AudioBitrate
  else
    match f.meta with
    | some m => mapIndex m key
    | none => .nil

/-- The block `if res != "" { resN, _ = strconv.Atoi(res[0 : len(res)-2]) }`
of `CompareKey`, `resN` starting at 0. -/
def parseRes (res : GoString) : Except Panic Int :=
  if res ≠ [] then do
    let s ← slice res 0 ((res.length : Int) - 2)
    pure (Atoi s).1
  else pure 0

/-- The method `Format.CompareKey`. -/
def Format.CompareKey (f other : Format) (key : FormatKey) : Except Panic Int :=
  if key = FormatResolutionKey then do
    let res ← assertString (f.ValueForKey key)
    let res1 ← parseRes res
    let res ← assertString (other.ValueForKey key)
    let res2 ← parseRes res
    pure (subInt res1 res2)
  else if key = FormatAudioBitrateKey then do
    let x ← assertInt (f.ValueForKey key)
    let y ← assertInt (other.ValueForKey key)
    pure (subInt x y)
  else pure 0

/-- The map `FORMATS`, its entries in the order of the source; a field an
entry does not name has Go's zero value. -/
def FORMATS : List (Int × Format) := [
  (5, { Extension := lit "flv", Resolution := lit "240p", VideoEncoding := lit "Sorenson H.283", AudioEncoding := lit "mp3", Itag := 5, AudioBitrate := 64 }),
  (6, { Extension := lit "flv", Resolution := lit "270p", VideoEncoding := lit "Sorenson H.263", AudioEncoding := lit "mp3", Itag := 6, AudioBitrate := 64 }),
  (13, { Extension := lit "3gp", Resolution := lit "", VideoEncoding := lit "MPEG-4 Visual", AudioEncoding := lit "aac", Itag := 13, AudioBitrate := 0 }),
  (17, { Extension := lit "3gp", Resolution := lit "144p", VideoEncoding := lit "MPEG-4 Visual", AudioEncoding := lit "aac", Itag := 17, AudioBitrate := 24 }),
  (18, { Extension := lit "mp4", Resolution := lit "360p", VideoEncoding := lit "H.264", AudioEncoding := lit "aac", Itag := 18, AudioBitrate := 96 }),
  (22, { Extension := lit "mp4", Resolution := lit "720p", VideoEncoding := lit "H.264", AudioEncoding := lit "aac", Itag := 22, AudioBitrate := 192 }),
  (34, { Extension := lit "flv", Resolution := lit "480p", VideoEncoding := lit "H.264", AudioEncoding := lit "aac", Itag := 34, AudioBitrate := 128 }),
  (35, { Extension := lit "flv", Resolution := lit "360p", VideoEncoding := lit "H.264", AudioEncoding := lit "aac", Itag := 35, AudioBitrate := 128 }),
  (36, { Extension := lit "3gp", Resolution := lit "240p", VideoEncoding := lit "MPEG-4 Visual", AudioEncoding := lit "aac", Itag := 36, AudioBitrate := 36 }),
  (37, { Extension := lit "mp4", Resolution := lit "1080p", VideoEncoding := lit "H.264", AudioEncoding := lit "aac", Itag := 37, AudioBitrate := 192 }),
  (38, { Extension := lit "mp4", Resolution := lit "3072p", VideoEncoding := lit "H.264", AudioEncoding := lit "aac", Itag := 38, AudioBitrate := 192 }),
  (43, { Extension := lit "webm", Resolution := lit "360p", VideoEncoding := lit "VP8", AudioEncoding := lit "vorbis", Itag := 43, AudioBitrate := 128 }),
  (44, { Extension := lit "webm", Resolution := lit "480p", VideoEncoding := lit "VP8", AudioEncoding := lit "vorbis", Itag := 44, AudioBitrate := 128 }),
  (45, { Extension := lit "webm", Resolution := lit "720p", VideoEncoding := lit "VP8", AudioEncoding := lit "vorbis", Itag := 45, AudioBitrate := 192 }),
  (46, { Extension := lit "webm", Resolution := lit "1080p", VideoEncoding := lit "VP8", AudioEncoding := lit "vorbis", Itag := 46, AudioBitrate := 192 }),
  (82, { Extension := lit "mp4", Resolution := lit "360p", VideoEncoding := lit "H.264", Itag := 82, AudioBitrate := 96 }),
  (83, { Extension := lit "mp4", Resolution := lit "240p", VideoEncoding := lit "H.264", AudioEncoding := lit "aac", Itag := 83, AudioBitrate := 96 }),
  (84, { Extension := lit "mp4", Resolution := lit "720p", VideoEncoding := lit "H.264", AudioEncoding := lit "aac", Itag := 84, AudioBitrate := 192 }),
  (85, { Extension := lit "mp4", Resolution := lit "1080p", VideoEncoding := lit "H.264", AudioEncoding := lit "aac", Itag := 85, AudioBitrate := 192 }),
  (100, { Extension := lit "webm", Resolution := lit "360p", VideoEncoding := lit "VP8", AudioEncoding := lit "vorbis", Itag := 100, AudioBitrate := 128 }),
  (101, { Extension := lit "webm", Resolution := lit "360p", VideoEncoding := lit "VP8", AudioEncoding := lit "vorbis", Itag := 101, AudioBitrate := 192 }),
  (102, { Extension := lit "webm", Resolution := lit "720p", VideoEncoding := lit "VP8", AudioEncoding := lit "vorbis", Itag := 102, AudioBitrate := 192 }),
  (133, { Extension := lit "mp4", Resolution := lit "240p", VideoEncoding := lit "H.264", AudioEncoding := lit "", Itag := 133, AudioBitrate := 0 }),
  (134, { Extension := lit "mp4", Resolution := lit "360p", VideoEncoding := lit "H.264", AudioEncoding := lit "", Itag := 134, AudioBitrate := 0 }),
  (135, { Extension := lit "mp4", Resolution := lit "480p", VideoEncoding := lit "H.264", AudioEncoding := lit "", Itag := 135, AudioBitrate := 0 }),
  (136, { Extension := lit "mp4", Resolution := lit "720p", VideoEncoding := lit "H.264", AudioEncoding := lit "", Itag := 136, AudioBitrate := 0 }),
  (137, { Extension := lit "mp4", Resolution := lit "1080p", VideoEncoding := lit "H.264", AudioEncoding := lit "", Itag := 137, AudioBitrate := 0 }),
  (138, { Extension := lit "mp4", Resolution := lit "2160p", VideoEncoding := lit "H.264", AudioEncoding := lit "", Itag := 138, AudioBitrate := 0 }),
  (160, { Extension := lit "mp4", Resolution := lit "144p", VideoEncoding := lit "H.264", AudioEncoding := lit "", Itag := 160, AudioBitrate := 0 }),
  (242, { Extension := lit "webm", Resolution := lit "240p", VideoEncoding := lit "VP9", AudioEncoding := lit "", Itag := 242, AudioBitrate := 0 }),
  (243, { Extension := lit "webm", Resolution := lit "360p", VideoEncoding := lit "VP9", AudioEncoding := lit "", Itag := 243, AudioBitrate := 0 }),
  (244, { Extension := lit "webm", Resolution := lit "480p", VideoEncoding := lit "VP9", AudioEncoding := lit "", Itag := 244, AudioBitrate := 0 }),
  (247, { Extension := lit "webm", Resolution := lit "720p", VideoEncoding := lit "VP9", AudioEncoding := lit "", Itag := 247, AudioBitrate := 0 }),
  (248, { Extension := lit "webm", Resolution := lit "1080p", VideoEncoding := lit "VP9", AudioEncoding := lit "", Itag := 248, AudioBitrate := 9 }),
  (264, { Extension := lit "mp4", Resolution := lit "1440p", VideoEncoding := lit "H.264", AudioEncoding := lit "", Itag := 264, AudioBitrate := 0 }),
  (266, { Extension := lit "mp4", Resolution := lit "2160p", VideoEncoding := lit "H.264", AudioEncoding := lit "", Itag := 266, AudioBitrate := 0 }),
  (271, { Extension := lit "webm", Resolution := lit "1440p", VideoEncoding := lit "VP9", AudioEncoding := lit "", Itag := 271, AudioBitrate := 0 }),
  (272, { Extension := lit "webm", Resolution := lit "2160p", VideoEncoding := lit "VP9", AudioEncoding := lit "", Itag := 272, AudioBitrate := 0 }),
  (278, { Extension := lit "webm", Resolution := lit "144p", VideoEncoding := lit "VP9", AudioEncoding := lit "", Itag := 278, AudioBitrate := 0 }),
  (298, { Extension := lit "mp4", Resolution := lit "720p", VideoEncoding := lit "H.264", AudioEncoding := lit "", Itag := 298, AudioBitrate := 0 }),
  (299, { Extension := lit "mp4", Resolution := lit "1080p", VideoEncoding := lit "H.264", AudioEncoding := lit "", Itag := 299, AudioBitrate := 0 }),
  (302, { Extension := lit "webm", Resolution := lit "720p", VideoEncoding := lit "VP9", AudioEncoding := lit "", Itag := 302, AudioBitrate := 0 }),
  (303, { Extension := lit "webm", Resolution := lit "1080p", VideoEncoding := lit "VP9", AudioEncoding := lit "", Itag := 303, AudioBitrate := 0 }),
  (139, { Extension := lit "mp4", Resolution := lit "", VideoEncoding := lit "", AudioEncoding := lit "aac", Itag := 139, AudioBitrate := 48 }),
  (140, { Extension := lit "mp4", Resolution := lit "", VideoEncoding := lit "", AudioEncoding := lit "aac", Itag := 140, AudioBitrate := 128 }),
  (141, { Extension := lit "mp4", Resolution := lit "", VideoEncoding := lit "", AudioEncoding := lit "aac", Itag := 141, AudioBitrate := 256 }),
  (171, { Extension := lit "webm", Resolution := lit "", VideoEncoding := lit "", AudioEncoding := lit "vorbis", Itag := 171, AudioBitrate := 128 }),
  (172, { Extension := lit "webm", Resolution := lit "", VideoEncoding := lit "", AudioEncoding := lit "vorbis", Itag := 172, AudioBitrate := 192 }),
  (249, { Extension := lit "webm", Resolution := lit "", VideoEncoding := lit "", AudioEncoding := lit "opus", Itag := 249, AudioBitrate := 50 }),
  (250, { Extension := lit "webm", Resolution := lit "", VideoEncoding := lit "", AudioEncoding := lit "opus", Itag := 250, AudioBitrate := 70 }),
  (251, { Extension := lit "webm", Resolution := lit "", VideoEncoding := lit "", AudioEncoding := lit "opus", Itag := 251, AudioBitrate := 160 }),
  (92, { Extension := lit "ts", Resolution := lit "240p", VideoEncoding := lit "H.264", AudioEncoding := lit "aac", Itag := 92, AudioBitrate := 48 }),
  (93, { Extension := lit "ts", Resolution := lit "480p", VideoEncoding := lit "H.264", AudioEncoding := lit "aac", Itag := 93, AudioBitrate := 128 }),
  (94, { Extension := lit "ts", Resolution := lit "720p", VideoEncoding := lit "H.264", AudioEncoding := lit "aac", Itag := 94, AudioBitrate := 128 }),
  (95, { Extension := lit "ts", Resolution := lit "1080p", VideoEncoding := lit "H.264", AudioEncoding := lit "aac", Itag := 95, AudioBitrate := 256 }),
  (96, { Extension := lit "ts", Resolution := lit "720p", VideoEncoding := lit "H.264", AudioEncoding := lit "aac", Itag := 96, AudioBitrate := 256 }),
  (120, { Extension := lit "flv", Resolution := lit "720p", VideoEncoding := lit "H.264", AudioEncoding := lit "aac", Itag := 120, AudioBitrate := 128 }),
  (127, { Extension := lit "ts", Resolution := lit "", VideoEncoding := lit "", AudioEncoding := lit "aac", Itag := 127, AudioBitrate := 96 }),
  (128, { Extension := lit "ts", Resolution := lit "", VideoEncoding := lit "", AudioEncoding := lit "aac", Itag := 128, AudioBitrate := 96 }),
  (132, { Extension := lit "ts", Resolution := lit "240p", VideoEncoding := lit "H.264", AudioEncoding := lit "aac", Itag := 132, AudioBitrate := 48 }),
  (151, { Extension := lit "ts", Resolution := lit "720p", VideoEncoding := lit "H.264", AudioEncoding := lit "aac", Itag := 151, AudioBitrate := 24 })
]

/-- The map index `FORMATS[itag]` in its two-result form. -/
def formatsIndex (itag : Int) : Option Format := FORMATS.lookup itag

/-- The function `newFormat`. -/
def newFormat (itag : Int) : Format × Bool :=
  match formatsIndex itag with
  | some f => ({ f with meta := some [] }, true)
  | none => ({}, false)

/-- The six constants of the block "Available format Keys". -/
def wellKnownKeys : List FormatKey :=
  [FormatExtensionKey, FormatResolutionKey, FormatVideoEncodingKey,
   FormatAudioEncodingKey, FormatItagKey, FormatAudioBitrateKey]

/-- The keys of the map `FORMATS`. -/
def formatKeys : List Int := FORMATS.map Prod.fst

/-! ## Vocabulary of the statements about resolution labels -/

/-- A decimal digit, one of the bytes '0' to '9'. -/
def isDigit (c : UInt8) : Bool := decide (0x30 ≤ c.toNat ∧ c.toNat ≤ 0x39)

/-- The number denoted by the digits `s` written after a numeral of value `n`. -/
def decimalAcc (n : Nat) (s : GoString) : Nat :=
  s.foldl (fun acc c => acc * 10 + (c.toNat - 0x30)) n

/-- The number a string of decimal digits denotes. -/
def decimalValue (s : GoString) : Nat := decimalAcc 0 s

/-- A label with its trailing two characters removed. -/
def labelHead (res : GoString) : GoString := res.take (res.length - 2)

/-- A decimal numeral within `int` range: one or more decimal digits denoting
at most `2^63 - 1`. -/
def IsIntNumeral (s : GoString) : Prop :=
  s ≠ [] ∧ (∀ c ∈ s, isDigit c = true) ∧ decimalValue s ≤ 2 ^ 63 - 1

/-- The labels of claim C6: empty, or at least 2 characters long with a
decimal numeral within `int` range before the last two. -/
def WellFormedLabel (res : GoString) : Prop :=
  res = [] ∨ (2 ≤ res.length ∧ IsIntNumeral (labelHead res))

/-- The value `parsed` of claim C6: 0 for the empty label, otherwise the
integer denoted by the label with its trailing two characters removed. -/
def parsed (res : GoString) : Int :=
  if res = [] then 0 else (decimalValue (labelHead res) : Int)

instance (s : GoString) : Decidable (IsIntNumeral s) := by
  unfold IsIntNumeral; infer_instance

instance (res : GoString) : Decidable (WellFormedLabel res) := by
  unfold WellFormedLabel; infer_instance

/-- The numeric parts claim C9 calls failing to parse as a non-negative
integer: empty, or containing a character that is no digit (a sign is one),
or a run of digits denoting a number too large for an `int`. -/
def FailsNonNegParse (s : GoString) : Prop :=
  s = [] ∨ (∃ c ∈ s, isDigit c = false) ∨
    ((∀ c ∈ s, isDigit c = true) ∧ 2 ^ 63 - 1 < decimalValue s)

instance (s : GoString) : Decidable (FailsNonNegParse s) := by
  unfold FailsNonNegParse; infer_instance

/-- What `ParseInt` hands to `ParseUint`: the string without one leading
'+' or '-'. -/
def unsignedPart : GoString → GoString
  | [] => []
  | c :: rest => if c.toNat = 0x2b ∨ c.toNat = 0x2d then rest else c :: rest

/-- The strings `Atoi` rejects with a syntax error: after one optional
leading sign nothing is left, or the leading run of digits stops at a
character that is no digit and denotes at most `2^64 - 1` (so the loop of
`ParseUint` reaches that character before it detects an overflow). -/
def SyntaxRejected (s : GoString) : Prop :=
  unsignedPart s = [] ∨
    ((unsignedPart s).takeWhile isDigit ≠ unsignedPart s ∧
      decimalValue ((unsignedPart s).takeWhile isDigit) ≤ maxUint64)

instance (s : GoString) : Decidable (SyntaxRejected s) := by
  unfold SyntaxRejected; infer_instance

/-- The `int` nearest to an integer: the integer itself within
`-2^63 .. 2^63 - 1`, and otherwise the bound on its side. -/
def clampInt (x : Int) : Int :=
  if x < -(2 ^ 63) then -(2 ^ 63) else if 2 ^ 63 - 1 < x then 2 ^ 63 - 1 else x

/-- The signed number a string starts with: the number denoted by the run of
digits after one optional leading sign, negated when that sign is '-'. -/
def signedValue (s : GoString) : Int :=
  match s with
  | [] => 0
  | c :: _ =>
    if c.toNat = 0x2d then -(decimalValue ((unsignedPart s).takeWhile isDigit) : Int)
    else (decimalValue ((unsignedPart s).takeWhile isDigit) : Int)

/-! ## Vocabulary of the statements about the table -/

/-- The names of video encodings the design document lists. -/
def videoCodecs : List GoString :=
  [lit "Sorenson H.263", lit "MPEG-4 Visual", lit "H.264", lit "VP8", lit "VP9"]

/-- The names of audio encodings the design document lists. -/
def audioCodecs : List GoString := [lit "mp3", lit "aac", lit "vorbis", lit "opus"]

/-- One or more decimal digits followed by the single character 'p': all
bytes but the last are digits, there is at least one, and the last is 'p'. -/
def IsDigitsP (res : GoString) : Prop :=
  res.dropLast ≠ [] ∧ (∀ c ∈ res.dropLast, isDigit c = true) ∧ res = res.dropLast ++ lit "p"

instance (res : GoString) : Decidable (IsDigitsP res) := by
  unfold IsDigitsP; infer_instance

/-- The full number written before the 'p' of a label, 0 for the empty label. -/
def fullNumber (res : GoString) : Nat := decimalValue res.dropLast

/-- Whether `CompareKey` under "res" returns, for the labels `r1` and `r2`, an
integer whose sign is that of `fullNumber r1` against `fullNumber r2`. -/
def orderAgrees (r1 r2 : GoString) : Bool :=
  match ({ Resolution := r1 } : Format).CompareKey { Resolution := r2 } FormatResolutionKey with
  | .ok r =>
    decide ((r < 0 ↔ fullNumber r1 < fullNumber r2) ∧ (r = 0 ↔ fullNumber r1 = fullNumber r2) ∧
      (0 < r ↔ fullNumber r2 < fullNumber r1))
  | .error _ => false

/-! ## Map objects: `newFormat` with the store made explicit

A Go map is a reference to a map object, so whether two `Format`s share a
metadata map shows only once the objects are kept apart from the values that
refer to them. -/

/-- The map objects made so far: `cell a` is the content of the object at
address `a`, and `next` is the address the next `make` returns. -/
structure Store where
  next : Nat
  cell : Nat → GoMap

/-- The store in which no map has been made. -/
def Store.empty : Store := { next := 0, cell := fun _ => [] }

/-- The call `make(map[string]interface{})`: the address of a new empty map
object, and the store that holds it. -/
def Store.make (s : Store) : Nat × Store :=
  (s.next, { next := s.next + 1, cell := fun a => if a = s.next then [] else s.cell a })

/-- A value of the struct `Format` as the run time holds it: the field `meta`
is nil or the address of a map object. -/
structure FormatRef where
  Itag : Int := 0
  Extension : GoString := []
  Resolution : GoString := []
  VideoEncoding : GoString := []
  AudioEncoding : GoString := []
  AudioBitrate : Int := 0
  meta : Option Nat := none

/-- The `Format` a reader of `f` sees in the store `s`. -/
def FormatRef.deref (f : FormatRef) (s : Store) : Format :=
  { Itag := f.Itag, Extension := f.Extension, Resolution := f.Resolution,
    VideoEncoding := f.VideoEncoding, AudioEncoding := f.AudioEncoding,
    AudioBitrate := f.AudioBitrate, meta := f.meta.map s.cell }

/-- The map index `FORMATS[itag]` at run time: no literal of the table names
the field `meta`, so every entry holds the nil map. -/
def formatsIndexRef (itag : Int) : Option FormatRef :=
  (formatsIndex itag).map fun e =>
    { Itag := e.Itag, Extension := e.Extension, Resolution := e.Resolution,
      VideoEncoding := e.VideoEncoding, AudioEncoding := e.AudioEncoding,
      AudioBitrate := e.AudioBitrate, meta := none }

/-- The function `newFormat` with the store made explicit: the copy `f` of the
entry gets the map that `make` returns. -/
def newFormatRef (s : Store) (itag : Int) : (FormatRef × Bool) × Store :=
  match formatsIndexRef itag with
  | some f => (({ f with meta := some s.make.1 }, true), s.make.2)
  | none => (({}, false), s)

/-- The assignment `f.meta[k] = v`; `none` is the panic on a nil map. -/
def FormatRef.setMeta (f : FormatRef) (s : Store) (k : GoString) (v : Value) : Option Store :=
  match f.meta with
  | none => none
  | some a =>
    some { s with cell := fun b => if b = a then mapStore (s.cell a) k v else s.cell b }

/-! ## The catalog: `newFormat` -/

theorem formatsIndex_isSome_of_mem {id : Int} (h : id ∈ formatKeys) :
    ∃ e, formatsIndex id = some e := by
  cases hl : formatsIndex id with
  | some e => exact ⟨e, rfl⟩
  | none =>
    exfalso
    unfold formatsIndex at hl
    rw [List.lookup_eq_none_iff] at hl
    obtain ⟨p, hp, rfl⟩ := List.mem_map.1 h
    simpa using hl p hp

theorem formatsIndex_none_of_not_mem {id : Int} (h : id ∉ formatKeys) :
    formatsIndex id = none := by
  unfold formatsIndex
  rw [List.lookup_eq_none_iff]
  intro p hp
  have hne : id ≠ p.1 := fun he => h (List.mem_map.2 ⟨p, hp, he.symm⟩)
  simpa using hne

theorem valueForKey_default (f : Format) {key : FormatKey} (h : key ∉ wellKnownKeys) :
    f.ValueForKey key = (match f.meta with | some m => mapIndex m key | none => .nil) := by
  simp only [wellKnownKeys, List.mem_cons, List.mem_singleton, List.not_mem_nil,
    not_or, or_false] at h
  obtain ⟨h1, h2, h3, h4, h5, h6⟩ := h
  simp only [Format.ValueForKey, if_neg h1, if_neg h2, if_neg h3, if_neg h4, if_neg h5,
    if_neg h6]

set_option maxRecDepth 8000 in
/-- The list that holds the map `FORMATS` names no key twice. -/
theorem formatKeys_nodup : formatKeys.Nodup := by decide

/-- Every entry of `FORMATS` is stored under its own `Itag`. -/
theorem formats_itag_eq_key : ∀ p ∈ FORMATS, p.2.Itag = p.1 := by decide

/-- C1: for every id that is a key of `FORMATS`, `newFormat id` reports
`found = true` and returns a `Format` whose `Itag` is `id`; every entry stored
under `id` has `Itag = id`, and exactly one entry of the table carries that
`Itag`, so identifiers are unique. -/
theorem newFormat_found_itag (id : Int) (h : id ∈ formatKeys) :
    (newFormat id).2 = true ∧ (newFormat id).1.Itag = id ∧
      (∀ p ∈ FORMATS, p.1 = id → p.2.Itag = id) ∧
      (FORMATS.filter (fun e => e.2.Itag = id)).length = 1 := by
  have hall : ∀ k ∈ formatKeys, (newFormat k).2 = true ∧ (newFormat k).1.Itag = k ∧
      (FORMATS.filter (fun e => e.2.Itag = k)).length = 1 := by decide
  obtain ⟨h1, h2, h3⟩ := hall id h
  exact ⟨h1, h2, fun p hp hk => (formats_itag_eq_key p hp).trans hk, h3⟩

theorem newFormat_found_itag_witness :
    (22 : Int) ∈ formatKeys ∧ ((newFormat 22).2 = true ∧ (newFormat 22).1.Itag = 22 ∧
      (∀ p ∈ FORMATS, p.1 = 22 → p.2.Itag = 22) ∧
      (FORMATS.filter (fun e => e.2.Itag = 22)).length = 1) :=
  ⟨by decide, newFormat_found_itag 22 (by decide)⟩

/-- C2: for every id that is not a key of `FORMATS`, `newFormat id` reports
`found = false` and returns the zero `Format`: `Itag` 0, the four strings
empty, `AudioBitrate` 0, a nil metadata map, and so no value under any key
outside the six well-known ones. -/
theorem newFormat_absent_zero (id : Int) (h : id ∉ formatKeys) :
    (newFormat id).2 = false ∧ (newFormat id).1.Itag = 0 ∧
      (newFormat id).1.Extension = [] ∧ (newFormat id).1.Resolution = [] ∧
      (newFormat id).1.VideoEncoding = [] ∧ (newFormat id).1.AudioEncoding = [] ∧
      (newFormat id).1.AudioBitrate = 0 ∧ (newFormat id).1.meta = none ∧
      ∀ key : FormatKey, key ∉ wellKnownKeys → (newFormat id).1.ValueForKey key = Value.nil := by
  have hn : newFormat id = ({}, false) := by
    simp only [newFormat, formatsIndex_none_of_not_mem h]
  rw [hn]
  refine ⟨rfl, rfl, rfl, rfl, rfl, rfl, rfl, rfl, ?_⟩
  intro key hk
  rw [valueForKey_default _ hk]

theorem newFormat_absent_zero_witness :
    (7 : Int) ∉ formatKeys ∧ ((newFormat 7).2 = false ∧ (newFormat 7).1.Itag = 0 ∧
      (newFormat 7).1.Extension = [] ∧ (newFormat 7).1.Resolution = [] ∧
      (newFormat 7).1.VideoEncoding = [] ∧ (newFormat 7).1.AudioEncoding = [] ∧
      (newFormat 7).1.AudioBitrate = 0 ∧ (newFormat 7).1.meta = none ∧
      ∀ key : FormatKey, key ∉ wellKnownKeys → (newFormat 7).1.ValueForKey key = Value.nil) :=
  ⟨by decide, newFormat_absent_zero 7 (by decide)⟩

/-- C3: for every id that is a key of `FORMATS`, the `Format` that
`newFormat id` returns has the six fixed fields of the table entry
`FORMATS[id]` and a fresh empty metadata map, so `ValueForKey` is nil on it
for every key outside the six well-known ones. -/
theorem newFormat_copies_entry (id : Int) (h : id ∈ formatKeys) :
    ∃ e, formatsIndex id = some e ∧
      (newFormat id).1.Itag = e.Itag ∧ (newFormat id).1.Extension = e.Extension ∧
      (newFormat id).1.Resolution = e.Resolution ∧
      (newFormat id).1.VideoEncoding = e.VideoEncoding ∧
      (newFormat id).1.AudioEncoding = e.AudioEncoding ∧
      (newFormat id).1.AudioBitrate = e.AudioBitrate ∧
      (newFormat id).1.meta = some [] ∧
      ∀ key : FormatKey, key ∉ wellKnownKeys → (newFormat id).1.ValueForKey key = Value.nil := by
  obtain ⟨e, he⟩ := formatsIndex_isSome_of_mem h
  have hn : newFormat id = ({ e with meta := some [] }, true) := by
    simp only [newFormat, he]
  refine ⟨e, he, ?_⟩
  rw [hn]
  refine ⟨rfl, rfl, rfl, rfl, rfl, rfl, rfl, ?_⟩
  intro key hk
  rw [valueForKey_default _ hk]
  rfl

theorem newFormat_copies_entry_witness :
    (18 : Int) ∈ formatKeys ∧ lit "nonexistent-key" ∉ wellKnownKeys ∧
      (newFormat 18).1.ValueForKey (lit "nonexistent-key") = Value.nil := by
  obtain ⟨_, _, _, _, _, _, _, _, _, hv⟩ := newFormat_copies_entry 18 (by decide)
  exact ⟨by decide, by decide, hv _ (by decide)⟩

/-! ## The accessor: `ValueForKey` -/

theorem mapIndex_mapStore (m : GoMap) (k : GoString) (v : Value) :
    mapIndex (mapStore m k v) k = v := by
  simp [mapIndex, mapStore]

/-- C4: for every `Format`, whatever its metadata map holds, `ValueForKey`
returns the fixed field for each of the six well-known keys (also when the
map has an entry under that same key); for `newFormat 22` the video encoding
is "H.264" and the audio encoding is "aac". -/
theorem valueForKey_wellKnown (f : Format) :
    f.ValueForKey FormatItagKey = Value.int f.Itag ∧
      f.ValueForKey FormatExtensionKey = Value.str f.Extension ∧
      f.ValueForKey FormatResolutionKey = Value.str f.Resolution ∧
      f.ValueForKey FormatVideoEncodingKey = Value.str f.VideoEncoding ∧
      f.ValueForKey FormatAudioEncodingKey = Value.str f.AudioEncoding ∧
      f.ValueForKey FormatAudioBitrateKey = Value.int f.AudioBitrate ∧
      (∀ (m : GoMap) (v : Value),
        ({ f with meta := some (mapStore m FormatItagKey v) } : Format).ValueForKey
          FormatItagKey = Value.int f.Itag) ∧
      (newFormat 22).1.ValueForKey FormatVideoEncodingKey = Value.str (lit "H.264") ∧
      (newFormat 22).1.ValueForKey FormatAudioEncodingKey = Value.str (lit "aac") :=
  ⟨rfl, rfl, rfl, rfl, rfl, rfl, fun _ _ => rfl, by decide, by decide⟩

/-- C5: for every `Format` and every key outside the six well-known ones,
`ValueForKey` returns the nil value when the metadata map is nil or holds no
entry under the key, and the stored value when it holds one (in particular
the value just stored under the key); being a total function, it never
panics. -/
theorem valueForKey_meta (f : Format) (key : FormatKey) (h : key ∉ wellKnownKeys) :
    (f.meta = none → f.ValueForKey key = Value.nil) ∧
      (∀ m : GoMap, f.meta = some m →
        (∀ v, m.lookup key = some v → f.ValueForKey key = v) ∧
        (m.lookup key = none → f.ValueForKey key = Value.nil)) ∧
      (∀ (m : GoMap) (v : Value),
        ({ f with meta := some (mapStore m key v) } : Format).ValueForKey key = v) := by
  refine ⟨?_, ?_, ?_⟩
  · intro hm
    rw [valueForKey_default f h, hm]
  · intro m hm
    rw [valueForKey_default f h, hm]
    refine ⟨?_, ?_⟩
    · intro v hv
      simp [mapIndex, hv]
    · intro hv
      simp [mapIndex, hv]
  · intro m v
    rw [valueForKey_default _ h]
    exact mapIndex_mapStore m key v

theorem valueForKey_meta_witness :
    lit "url" ∉ wellKnownKeys ∧
      ({ Itag := 18, meta := some [(lit "url", Value.str (lit "u"))] } : Format).ValueForKey
        (lit "url") = Value.str (lit "u") ∧
      ({ Itag := 18, meta := some [(lit "url", Value.str (lit "u"))] } : Format).ValueForKey
        (lit "size") = Value.nil ∧
      ({ Itag := 18 } : Format).ValueForKey (lit "url") = Value.nil :=
  ⟨by decide,
   ((valueForKey_meta _ (lit "url") (by decide)).2.1 _ rfl).1 _ (by decide),
   ((valueForKey_meta _ (lit "size") (by decide)).2.1 _ rfl).2 (by decide),
   (valueForKey_meta _ (lit "url") (by decide)).1 rfl⟩

/-! ## The comparator: `CompareKey` -/

theorem wrapInt_of_range {x : Int} (h1 : -(2 ^ 63) ≤ x) (h2 : x < 2 ^ 63) : wrapInt x = x := by
  unfold wrapInt
  have h : (x + 2 ^ 63) % 2 ^ 64 = x + 2 ^ 63 :=
    Int.emod_eq_of_lt (by omega) (by omega)
  omega

theorem compareKey_audbr_eq (a b : Format) :
    a.CompareKey b FormatAudioBitrateKey = .ok (subInt a.AudioBitrate b.AudioBitrate) := rfl

/-- C7: for every two `Format`s, `CompareKey` under "audbr" is Go's
`a.AudioBitrate - b.AudioBitrate` (the exact difference whenever that fits a
64-bit `int`), whatever the other fields and the metadata hold; for
`newFormat 18` and `newFormat 22` it is `96 - 192 = -96`. -/
theorem compareKey_audbr (a b : Format) :
    a.CompareKey b FormatAudioBitrateKey = .ok (subInt a.AudioBitrate b.AudioBitrate) ∧
      (-(2 ^ 63) ≤ a.AudioBitrate - b.AudioBitrate ∧ a.AudioBitrate - b.AudioBitrate < 2 ^ 63 →
        a.CompareKey b FormatAudioBitrateKey = .ok (a.AudioBitrate - b.AudioBitrate)) ∧
      (∀ (i j : Int) (e r v c : GoString) (m : Option GoMap),
        ({ a with Itag := i, Extension := e, Resolution := r, VideoEncoding := v,
                  AudioEncoding := c, meta := m } : Format).CompareKey
          { b with Itag := j, Extension := c, Resolution := e, VideoEncoding := r,
                   AudioEncoding := v, meta := m } FormatAudioBitrateKey
          = a.CompareKey b FormatAudioBitrateKey) ∧
      (newFormat 18).1.CompareKey (newFormat 22).1 FormatAudioBitrateKey = .ok (96 - 192) ∧
      (newFormat 18).1.CompareKey (newFormat 22).1 FormatAudioBitrateKey = .ok (-96) := by
  refine ⟨rfl, ?_, ?_, by decide, by decide⟩
  · rintro ⟨h1, h2⟩
    rw [compareKey_audbr_eq, subInt, wrapInt_of_range h1 h2]
  · intro i j e r v c m
    rfl

theorem compareKey_audbr_witness :
    ({ AudioBitrate := 96, Resolution := lit "p" } : Format).CompareKey
        { AudioBitrate := 192, Resolution := lit "xyz" } FormatAudioBitrateKey = .ok (-96) :=
  ((compareKey_audbr { AudioBitrate := 96, Resolution := lit "p" }
      { AudioBitrate := 192, Resolution := lit "xyz" }).2.1 (by decide)).trans (by decide)

/-- C8: for every two `Format`s and every key other than "res" and "audbr"
(the other well-known keys and caller-defined keys alike), `CompareKey`
returns 0 whatever the fields and metadata are. -/
theorem compareKey_other_key (a b : Format) (key : FormatKey)
    (hres : key ≠ FormatResolutionKey) (haud : key ≠ FormatAudioBitrateKey) :
    a.CompareKey b key = .ok 0 := by
  simp only [Format.CompareKey, if_neg hres, if_neg haud]
  rfl

theorem compareKey_other_key_witness :
    (newFormat 18).1.Extension ≠ (newFormat 43).1.Extension ∧
      (newFormat 18).1.CompareKey (newFormat 43).1 FormatExtensionKey = .ok 0 ∧
      (newFormat 18).1.CompareKey (newFormat 22).1 FormatExtensionKey = .ok 0 ∧
      (newFormat 18).1.CompareKey (newFormat 22).1 FormatItagKey = .ok 0 ∧
      (newFormat 18).1.CompareKey (newFormat 22).1 (lit "url") = .ok 0 :=
  ⟨by decide,
   compareKey_other_key _ _ FormatExtensionKey (by decide) (by decide),
   compareKey_other_key _ _ FormatExtensionKey (by decide) (by decide),
   compareKey_other_key _ _ FormatItagKey (by decide) (by decide),
   compareKey_other_key _ _ (lit "url") (by decide) (by decide)⟩

/-! ## Resolution labels and `strconv.Atoi` -/

theorem decimalAcc_cons (n : Nat) (c : UInt8) (cs : GoString) :
    decimalAcc n (c :: cs) = decimalAcc (n * 10 + (c.toNat - 0x30)) cs := rfl

theorem le_decimalAcc (s : GoString) : ∀ n : Nat, n ≤ decimalAcc n s := by
  induction s with
  | nil => intro n; exact Nat.le_refl n
  | cons c cs ih =>
    intro n
    rw [decimalAcc_cons]
    have := ih (n * 10 + (c.toNat - 0x30))
    omega

theorem digitOf_of_isDigit {c : UInt8} (h : isDigit c = true) :
    digitOf c = some (c.toNat - 0x30) ∧ c.toNat - 0x30 < 10 := by
  have h' : 0x30 ≤ c.toNat ∧ c.toNat ≤ 0x39 := by simpa [isDigit] using h
  refine ⟨?_, by omega⟩
  simp only [digitOf, if_pos h']

/-- One turn of the loop of `ParseUint` on a digit that does not overflow. -/
theorem parseUintLoop_digit {c : UInt8} (cs : GoString) {n : Nat} (h : isDigit c = true)
    (hfit : n * 10 + (c.toNat - 0x30) ≤ maxUint64) :
    parseUintLoop (c :: cs) n = parseUintLoop cs (n * 10 + (c.toNat - 0x30)) := by
  obtain ⟨hd, hlt⟩ := digitOf_of_isDigit h
  have hmax : maxUint64 = 18446744073709551615 := by decide
  rw [hmax] at hfit
  have hpow : (2 : Nat) ^ 64 = 18446744073709551616 := by norm_num
  have h10 : n * 10 % 18446744073709551616 = n * 10 := Nat.mod_eq_of_lt (by omega)
  have h1 : (n * 10 + (c.toNat - 0x30)) % 18446744073709551616 = n * 10 + (c.toNat - 0x30) :=
    Nat.mod_eq_of_lt (by omega)
  simp only [parseUintLoop, hd, hmax, hpow, h10, h1]
  rw [if_neg (by omega), if_neg (by omega), if_neg (by omega)]

/-- One turn of the loop of `ParseUint` on a byte that is no decimal digit. -/
theorem parseUintLoop_nondigit {c : UInt8} (cs : GoString) (n : Nat) (h : isDigit c = false) :
    parseUintLoop (c :: cs) n = (0, some .errSyntax) := by
  have h' : ¬ (0x30 ≤ c.toNat ∧ c.toNat ≤ 0x39) := by simpa [isDigit] using h
  by_cases hl : 0x61 ≤ lower c ∧ lower c ≤ 0x7a
  · have hd : digitOf c = some (lower c - 0x61 + 10) := by
      simp only [digitOf, if_neg h', if_pos hl]
    simp only [parseUintLoop, hd]
    rw [if_pos (by omega)]
  · have hd : digitOf c = none := by
      simp only [digitOf, if_neg h', if_neg hl]
    simp only [parseUintLoop, hd]

/-- The loop of `ParseUint` consumes a run of digits that does not overflow. -/
theorem parseUintLoop_digits (pre rest : GoString) :
    ∀ n : Nat, (∀ c ∈ pre, isDigit c = true) → decimalAcc n pre ≤ maxUint64 →
      parseUintLoop (pre ++ rest) n = parseUintLoop rest (decimalAcc n pre) := by
  induction pre with
  | nil => intro n _ _; rfl
  | cons c cs ih =>
    intro n hdig hfit
    rw [decimalAcc_cons] at hfit ⊢
    have hstep := le_decimalAcc cs (n * 10 + (c.toNat - 0x30))
    rw [List.cons_append, parseUintLoop_digit _ (hdig c (List.mem_cons_self c cs)) (by omega)]
    exact ih _ (fun x hx => hdig x (List.mem_cons_of_mem c hx)) hfit

theorem not_sign_of_isDigit {c : UInt8} (h : isDigit c = true) :
    c.toNat ≠ 0x2b ∧ c.toNat ≠ 0x2d := by
  have h' : 0x30 ≤ c.toNat ∧ c.toNat ≤ 0x39 := by simpa [isDigit] using h
  omega

/-- On a decimal numeral within `int` range `Atoi` returns the number it
denotes, with no error. -/
theorem Atoi_of_isIntNumeral {s : GoString} (h : IsIntNumeral s) :
    Atoi s = ((decimalValue s : Int), none) := by
  obtain ⟨hne, hdig, hval⟩ := h
  cases s with
  | nil => exact absurd rfl hne
  | cons c rest =>
    obtain ⟨hp, hm⟩ := not_sign_of_isDigit (hdig c (List.mem_cons_self c rest))
    have hmax : maxUint64 = 18446744073709551615 := by decide
    have hv : decimalValue (c :: rest) ≤ 9223372036854775807 := by
      have : (2 : Nat) ^ 63 - 1 = 9223372036854775807 := by norm_num
      omega
    have hloop : parseUintLoop (c :: rest) 0 = (decimalValue (c :: rest), none) := by
      have := parseUintLoop_digits (c :: rest) [] 0 hdig (by rw [hmax]; unfold decimalValue at hv; omega)
      rw [List.append_nil] at this
      rw [this]
      rfl
    have hu : ParseUint (c :: rest) = (decimalValue (c :: rest), none) := by
      unfold ParseUint
      rw [if_neg (List.cons_ne_nil c rest), hloop]
    have hw : wrapInt (decimalValue (c :: rest) : Int) = (decimalValue (c :: rest) : Int) :=
      wrapInt_of_range (by omega) (by omega)
    have hnotbig : ¬ (decimalValue (c :: rest) ≥ 2 ^ 63) := by
      have : (2 : Nat) ^ 63 = 9223372036854775808 := by norm_num
      omega
    simp only [Atoi, ParseInt, hp, hm, or_self, if_false, hu, decide_False, hw]
    simp
    omega

/-- The resolution block on the empty label. -/
theorem parseRes_nil : parseRes [] = .ok 0 := rfl

/-- The resolution block on a label of at least two bytes. -/
theorem parseRes_of_two_le {res : GoString} (h : 2 ≤ res.length) :
    parseRes res = .ok (Atoi (labelHead res)).1 := by
  have hne : res ≠ [] := by
    intro he
    rw [he] at h
    simp at h
  have hcast : ((res.length : Int) - 2).toNat = res.length - 2 := by omega
  have hsl : slice res 0 ((res.length : Int) - 2) = .ok (labelHead res) := by
    unfold slice
    rw [if_pos (by omega)]
    simp [labelHead, hcast]
  unfold parseRes
  rw [if_pos hne, hsl]
  rfl

/-- The resolution block on a label of one byte: the slice `res[0:-1]`. -/
theorem parseRes_of_length_one {res : GoString} (h : res.length = 1) :
    parseRes res = .error .sliceBounds := by
  have hne : res ≠ [] := by
    intro he
    rw [he] at h
    simp at h
  have hsl : slice res 0 ((res.length : Int) - 2) = .error .sliceBounds := by
    unfold slice
    rw [if_neg (by omega)]
  unfold parseRes
  rw [if_pos hne, hsl]
  rfl

theorem compareKey_res_eq (a b : Format) :
    a.CompareKey b FormatResolutionKey =
      (parseRes a.Resolution >>= fun r1 =>
        parseRes b.Resolution >>= fun r2 => pure (subInt r1 r2)) := rfl

theorem parseRes_wellFormed {res : GoString} (h : WellFormedLabel res) :
    parseRes res = .ok (parsed res) ∧ 0 ≤ parsed res ∧ parsed res < 2 ^ 63 := by
  rcases h with rfl | ⟨h2, hnum⟩
  · exact ⟨rfl, by decide, by decide⟩
  · have hne : res ≠ [] := by
      intro he
      rw [he] at h2
      simp at h2
    have hv := hnum.2.2
    have hpow : (2 : Nat) ^ 63 - 1 = 9223372036854775807 := by norm_num
    rw [parseRes_of_two_le h2, Atoi_of_isIntNumeral hnum]
    simp only [parsed, if_neg hne]
    refine ⟨trivial, by omega, by omega⟩

/-- C6: for two `Format`s whose `Resolution` labels are each empty or at
least 2 characters long with a decimal numeral within `int` range before
the last two, `CompareKey` under "res" is `parsed a - parsed b`, `parsed`
being 0 for the empty label and otherwise the integer denoted by the label
without its last two characters. -/
theorem compareKey_res_wellFormed (a b : Format) (ha : WellFormedLabel a.Resolution)
    (hb : WellFormedLabel b.Resolution) :
    a.CompareKey b FormatResolutionKey = .ok (parsed a.Resolution - parsed b.Resolution) := by
  obtain ⟨pa, ha0, ha1⟩ := parseRes_wellFormed ha
  obtain ⟨pb, hb0, hb1⟩ := parseRes_wellFormed hb
  rw [compareKey_res_eq, pa, pb]
  show Except.ok (subInt _ _) = _
  rw [subInt, wrapInt_of_range (by omega) (by omega)]

theorem compareKey_res_wellFormed_witness :
    WellFormedLabel (newFormat 18).1.Resolution ∧ WellFormedLabel (newFormat 37).1.Resolution ∧
      (newFormat 18).1.CompareKey (newFormat 37).1 FormatResolutionKey = .ok (36 - 108) :=
  ⟨by decide, by decide,
   (compareKey_res_wellFormed (newFormat 18).1 (newFormat 37).1 (by decide) (by decide)).trans
     (by decide)⟩

/-- The loop of `ParseUint` stops with a syntax error at the first byte that
is no digit, when the digits before it do not overflow. -/
theorem parseUintLoop_rejects (t : GoString) :
    ∀ n : Nat, t.takeWhile isDigit ≠ t → decimalAcc n (t.takeWhile isDigit) ≤ maxUint64 →
      parseUintLoop t n = (0, some .errSyntax) := by
  induction t with
  | nil => intro n hne _; exact absurd rfl hne
  | cons c cs ih =>
    intro n hne hfit
    cases hc : isDigit c with
    | false => exact parseUintLoop_nondigit cs n hc
    | true =>
      rw [List.takeWhile_cons_of_pos hc] at hne hfit
      rw [decimalAcc_cons] at hfit
      have hstep := le_decimalAcc (cs.takeWhile isDigit) (n * 10 + (c.toNat - 0x30))
      rw [parseUintLoop_digit cs hc (by omega)]
      exact ih _ (fun he => hne (by rw [he])) hfit

theorem ParseUint_rejects {t : GoString}
    (h : t = [] ∨ (t.takeWhile isDigit ≠ t ∧ decimalValue (t.takeWhile isDigit) ≤ maxUint64)) :
    ParseUint t = (0, some .errSyntax) := by
  unfold ParseUint
  by_cases ht : t = []
  · rw [if_pos ht]
  · rw [if_neg ht]
    rcases h with h | ⟨h1, h2⟩
    · exact absurd h ht
    · exact parseUintLoop_rejects t 0 h1 h2

/-- On a string it rejects with a syntax error `Atoi` returns 0. -/
theorem Atoi_of_syntaxRejected {s : GoString} (h : SyntaxRejected s) :
    Atoi s = (0, some .errSyntax) := by
  cases s with
  | nil => rfl
  | cons c rest =>
    have hu : ParseUint (if c.toNat = 0x2b ∨ c.toNat = 0x2d then rest else c :: rest)
        = (0, some .errSyntax) := ParseUint_rejects h
    simp only [Atoi, ParseInt, hu, if_true]

/-- One turn of the loop of `ParseUint` on a digit that overflows `uint64`. -/
theorem parseUintLoop_overflow {c : UInt8} (cs : GoString) {n : Nat} (h : isDigit c = true)
    (hn : n ≤ maxUint64) (hov : maxUint64 < n * 10 + (c.toNat - 0x30)) :
    parseUintLoop (c :: cs) n = (maxUint64, some .errRange) := by
  obtain ⟨hd, hlt⟩ := digitOf_of_isDigit h
  have hmax : maxUint64 = 18446744073709551615 := by decide
  rw [hmax] at hn hov
  have hpow : (2 : Nat) ^ 64 = 18446744073709551616 := by norm_num
  simp only [parseUintLoop, hd, hmax, hpow]
  rw [if_neg (by omega)]
  by_cases hc : n ≥ 18446744073709551615 / 10 + 1
  · rw [if_pos hc]
  · rw [if_neg hc, if_pos (by omega)]

/-- The loop of `ParseUint` in full: it returns a range error when the
leading run of digits overflows `uint64`, else a syntax error when a byte
that is no digit follows the run, else the number the digits denote. -/
theorem parseUintLoop_spec (t : GoString) :
    ∀ n : Nat, n ≤ maxUint64 →
      parseUintLoop t n =
        if maxUint64 < decimalAcc n (t.takeWhile isDigit) then (maxUint64, some .errRange)
        else if t.takeWhile isDigit = t then (decimalAcc n t, none)
        else (0, some .errSyntax) := by
  induction t with
  | nil =>
    intro n hn
    have h0 : decimalAcc n [] = n := rfl
    simp only [List.takeWhile_nil, h0, if_neg (Nat.not_lt.2 hn), if_true]
    rfl
  | cons c cs ih =>
    intro n hn
    cases hc : isDigit c with
    | false =>
      have h0 : decimalAcc n [] = n := rfl
      rw [parseUintLoop_nondigit cs n hc, List.takeWhile_cons_of_neg (by simp [hc]), h0,
        if_neg (Nat.not_lt.2 hn), if_neg (List.cons_ne_nil c cs).symm]
    | true =>
      rw [List.takeWhile_cons_of_pos hc, decimalAcc_cons, decimalAcc_cons]
      have hstep := le_decimalAcc (cs.takeWhile isDigit) (n * 10 + (c.toNat - 0x30))
      by_cases hfit : n * 10 + (c.toNat - 0x30) ≤ maxUint64
      · rw [parseUintLoop_digit cs hc hfit, ih _ hfit]
        by_cases hov : maxUint64 < decimalAcc (n * 10 + (c.toNat - 0x30)) (cs.takeWhile isDigit)
        · rw [if_pos hov, if_pos hov]
        · rw [if_neg hov, if_neg hov]
          by_cases hall : cs.takeWhile isDigit = cs
          · rw [if_pos hall, if_pos (by rw [hall])]
          · rw [if_neg hall, if_neg (fun he => hall (List.cons.inj he).2)]
      · rw [parseUintLoop_overflow cs hc hn (by omega), if_pos (by omega)]

/-- The function `ParseUint` in full. -/
theorem ParseUint_spec (t : GoString) :
    ParseUint t =
      if t = [] then (0, some .errSyntax)
      else if maxUint64 < decimalValue (t.takeWhile isDigit) then (maxUint64, some .errRange)
      else if t.takeWhile isDigit = t then (decimalValue t, none)
      else (0, some .errSyntax) := by
  unfold ParseUint
  by_cases ht : t = []
  · rw [if_pos ht, if_pos ht]
  · rw [if_neg ht, if_neg ht, parseUintLoop_spec t 0 (by decide)]
    rfl

theorem clampInt_range (x : Int) : -(2 ^ 63) ≤ clampInt x ∧ clampInt x < 2 ^ 63 := by
  unfold clampInt
  split_ifs <;> omega

/-- On a string it does not reject with a syntax error, `Atoi` returns the
signed number the string starts with, or the `int` bound on its side when that
number is out of range. -/
theorem Atoi_of_not_syntaxRejected {s : GoString} (h : ¬ SyntaxRejected s) :
    (Atoi s).1 = clampInt (signedValue s) := by
  cases s with
  | nil => exact absurd (Or.inl rfl) h
  | cons c rest =>
    unfold SyntaxRejected at h
    have hbody : unsignedPart (c :: rest)
        = if c.toNat = 0x2b ∨ c.toNat = 0x2d then rest else c :: rest := rfl
    have hne : unsignedPart (c :: rest) ≠ [] := fun he => h (Or.inl he)
    have hmax : maxUint64 = 18446744073709551615 := by decide
    have hu := ParseUint_spec (unsignedPart (c :: rest))
    rw [if_neg hne] at hu
    have hsv : signedValue (c :: rest)
        = if c.toNat = 0x2d
          then -(decimalValue ((unsignedPart (c :: rest)).takeWhile isDigit) : Int)
          else (decimalValue ((unsignedPart (c :: rest)).takeWhile isDigit) : Int) := rfl
    rw [hsv]
    unfold Atoi ParseInt
    simp only [← hbody]
    generalize unsignedPart (c :: rest) = body at h hne hu ⊢
    by_cases hov : maxUint64 < decimalValue (body.takeWhile isDigit)
    · rw [if_pos hov] at hu
      rw [hu]
      rw [hmax] at hov
      by_cases hneg : c.toNat = 0x2d
      · simp [hneg, hmax, clampInt]
        omega
      · simp [hneg, hmax, clampInt]
        omega
    · have hall : body.takeWhile isDigit = body := by
        by_contra hnot
        exact h (Or.inr ⟨hnot, Nat.not_lt.1 hov⟩)
      rw [if_neg hov, if_pos hall] at hu
      rw [hu, hall]
      rw [hall, hmax] at hov
      by_cases hneg : c.toNat = 0x2d
      · simp only [hneg, if_true, decide_True, clampInt, wrapInt, negInt]
        simp
        split_ifs <;> omega
      · simp only [hneg, if_false, decide_False, clampInt, wrapInt, negInt]
        simp
        split_ifs <;> omega

/-- C9, the claim as stated fails: a label whose numeric part is too large for
an `int` compares as the largest `int`, not as 0 (also when a character that is
no digit follows the overflow), and a label whose numeric part carries a sign
compares as the signed number. -/
theorem compareKey_res_unparsable_not_zero :
    (2 ≤ (lit "92233720368547758080p").length ∧
      FailsNonNegParse (labelHead (lit "92233720368547758080p")) ∧
      ({ Resolution := lit "92233720368547758080p" } : Format).CompareKey {} FormatResolutionKey
        = .ok 9223372036854775807) ∧
    (2 ≤ (lit "99999999999999999999x0p").length ∧
      FailsNonNegParse (labelHead (lit "99999999999999999999x0p")) ∧
      ({ Resolution := lit "99999999999999999999x0p" } : Format).CompareKey {} FormatResolutionKey
        = .ok 9223372036854775807) ∧
    (2 ≤ (lit "-50p").length ∧
      FailsNonNegParse (labelHead (lit "-50p")) ∧
      ({ Resolution := lit "-50p" } : Format).CompareKey {} FormatResolutionKey = .ok (-5)) := by
  decide

/-- C9, amended: for a `Format` `a` whose `Resolution` label has at least 2
characters and a `Format` `b` with an empty label, `CompareKey` under "res"
does not panic and returns 0 when the part of `a`'s label before the last two
characters is one `Atoi` rejects with a syntax error (nothing but an optional
sign, or a character that is no digit after digits that denote at most
`2^64 - 1`); otherwise it returns the number denoted by the run of digits
after the optional sign, negated under a leading '-', or the `int` bound on
its side (`2^63 - 1` or `-2^63`) when that number is out of `int` range. -/
theorem compareKey_res_against_empty (a b : Format) (hlen : 2 ≤ a.Resolution.length)
    (hb : b.Resolution = []) :
    (SyntaxRejected (labelHead a.Resolution) →
        a.CompareKey b FormatResolutionKey = .ok 0) ∧
      (¬ SyntaxRejected (labelHead a.Resolution) →
        a.CompareKey b FormatResolutionKey
          = .ok (clampInt (signedValue (labelHead a.Resolution)))) := by
  refine ⟨?_, ?_⟩
  · intro hbad
    rw [compareKey_res_eq, parseRes_of_two_le hlen, Atoi_of_syntaxRejected hbad, hb,
      parseRes_nil]
    rfl
  · intro hgood
    rw [compareKey_res_eq, parseRes_of_two_le hlen, Atoi_of_not_syntaxRejected hgood, hb,
      parseRes_nil]
    show Except.ok (subInt _ 0) = _
    rw [subInt, Int.sub_zero,
      wrapInt_of_range (clampInt_range _).1 (clampInt_range _).2]

theorem compareKey_res_against_empty_witness :
    (2 ≤ (lit "HD720p").length ∧ SyntaxRejected (labelHead (lit "HD720p")) ∧
      ({ Resolution := lit "HD720p" } : Format).CompareKey (newFormat 140).1
        FormatResolutionKey = .ok 0) ∧
    (¬ SyntaxRejected (labelHead (lit "-70xp")) ∧
      ({ Resolution := lit "-70xp" } : Format).CompareKey (newFormat 140).1
        FormatResolutionKey = .ok (-70)) ∧
    (¬ SyntaxRejected (labelHead (lit "+70xp")) ∧
      ({ Resolution := lit "+70xp" } : Format).CompareKey (newFormat 140).1
        FormatResolutionKey = .ok 70) ∧
    (¬ SyntaxRejected (labelHead (lit "9223372036854775808xp")) ∧
      ({ Resolution := lit "9223372036854775808xp" } : Format).CompareKey (newFormat 140).1
        FormatResolutionKey = .ok 9223372036854775807) ∧
    (¬ SyntaxRejected (labelHead (lit "-9223372036854775809xp")) ∧
      ({ Resolution := lit "-9223372036854775809xp" } : Format).CompareKey (newFormat 140).1
        FormatResolutionKey = .ok (-9223372036854775808)) :=
  ⟨⟨by decide, by decide,
    (compareKey_res_against_empty { Resolution := lit "HD720p" } (newFormat 140).1
      (by decide) (by decide)).1 (by decide)⟩,
   ⟨by decide,
    ((compareKey_res_against_empty { Resolution := lit "-70xp" } (newFormat 140).1
      (by decide) (by decide)).2 (by decide)).trans (by decide)⟩,
   ⟨by decide,
    ((compareKey_res_against_empty { Resolution := lit "+70xp" } (newFormat 140).1
      (by decide) (by decide)).2 (by decide)).trans (by decide)⟩,
   ⟨by decide,
    ((compareKey_res_against_empty { Resolution := lit "9223372036854775808xp" }
      (newFormat 140).1 (by decide) (by decide)).2 (by decide)).trans (by decide)⟩,
   ⟨by decide,
    ((compareKey_res_against_empty { Resolution := lit "-9223372036854775809xp" }
      (newFormat 140).1 (by decide) (by decide)).2 (by decide)).trans (by decide)⟩⟩

/-- The resolution block panics on no label but those of one byte. -/
theorem parseRes_cases (res : GoString) :
    (res.length = 1 ∧ parseRes res = .error .sliceBounds) ∨ ∃ v, parseRes res = .ok v := by
  by_cases h1 : res.length = 1
  · exact Or.inl ⟨h1, parseRes_of_length_one h1⟩
  · by_cases h2 : 2 ≤ res.length
    · exact Or.inr ⟨_, parseRes_of_two_le h2⟩
    · have h0 : res = [] := List.length_eq_zero.1 (by omega)
      exact Or.inr ⟨0, by rw [h0, parseRes_nil]⟩

/-- C10, what the code does: when the `Resolution` label of `a` is one
character long, `CompareKey` under "res" panics on the slice `res[0:-1]`,
with `a` as the receiver and with `a` as the argument, whatever `b` is. -/
theorem compareKey_res_one_char_panics (a b : Format) (h : a.Resolution.length = 1) :
    a.CompareKey b FormatResolutionKey = .error .sliceBounds ∧
      b.CompareKey a FormatResolutionKey = .error .sliceBounds := by
  have ha := parseRes_of_length_one h
  refine ⟨?_, ?_⟩
  · rw [compareKey_res_eq, ha]
    rfl
  · rw [compareKey_res_eq, ha]
    rcases parseRes_cases b.Resolution with ⟨_, hb⟩ | ⟨v, hb⟩
    · rw [hb]
      rfl
    · rw [hb]
      rfl

theorem compareKey_res_one_char_panics_witness :
    ({ Resolution := lit "p" } : Format).Resolution.length = 1 ∧
      ({ Resolution := lit "p" } : Format).CompareKey {} FormatResolutionKey
        = .error .sliceBounds ∧
      (newFormat 18).1.CompareKey { Resolution := lit "p" } FormatResolutionKey
        = .error .sliceBounds :=
  ⟨by decide,
   (compareKey_res_one_char_panics { Resolution := lit "p" } {} (by decide)).1,
   (compareKey_res_one_char_panics { Resolution := lit "p" } (newFormat 18).1 (by decide)).2⟩

/-! ## The comparator on the catalog, and on one `Format` twice -/

/-- The slice `res[0 : len(res)-2]` is in bounds on a label of two bytes or more. -/
theorem slice_of_two_le {res : GoString} (h : 2 ≤ res.length) :
    slice res 0 ((res.length : Int) - 2) = .ok (labelHead res) := by
  have hcast : ((res.length : Int) - 2).toNat = res.length - 2 := by omega
  unfold slice
  rw [if_pos (by omega)]
  simp [labelHead, hcast]

/-- No `Format` of the catalog has a label of one byte. -/
theorem catalog_label_length : ∀ k ∈ formatKeys,
    (newFormat k).1.Resolution = [] ∨ 2 ≤ (newFormat k).1.Resolution.length := by decide

/-- C11: for two `Format`s that `newFormat` returns for keys of `FORMATS` and
for every key, `CompareKey` returns an integer and does not panic: a label
that is sliced has two bytes or more, so `res[0:len(res)-2]` is in bounds,
and the type assertions on the results of `ValueForKey` succeed. -/
theorem compareKey_catalog_no_panic (i j : Int) (hi : i ∈ formatKeys) (hj : j ∈ formatKeys)
    (key : FormatKey) :
    (∃ v, (newFormat i).1.CompareKey (newFormat j).1 key = .ok v) ∧
      ((newFormat i).1.Resolution = [] ∨
        slice (newFormat i).1.Resolution 0 (((newFormat i).1.Resolution.length : Int) - 2)
          = .ok (labelHead (newFormat i).1.Resolution)) ∧
      ((newFormat j).1.Resolution = [] ∨
        slice (newFormat j).1.Resolution 0 (((newFormat j).1.Resolution.length : Int) - 2)
          = .ok (labelHead (newFormat j).1.Resolution)) ∧
      assertString ((newFormat i).1.ValueForKey FormatResolutionKey)
        = .ok (newFormat i).1.Resolution ∧
      assertString ((newFormat j).1.ValueForKey FormatResolutionKey)
        = .ok (newFormat j).1.Resolution ∧
      assertInt ((newFormat i).1.ValueForKey FormatAudioBitrateKey)
        = .ok (newFormat i).1.AudioBitrate ∧
      assertInt ((newFormat j).1.ValueForKey FormatAudioBitrateKey)
        = .ok (newFormat j).1.AudioBitrate := by
  have li := catalog_label_length i hi
  have lj := catalog_label_length j hj
  refine ⟨?_, li.imp_right slice_of_two_le, lj.imp_right slice_of_two_le, rfl, rfl, rfl, rfl⟩
  by_cases hres : key = FormatResolutionKey
  · subst hres
    have pi : ∃ v, parseRes (newFormat i).1.Resolution = .ok v := by
      rcases li with h | h
      · exact ⟨0, by rw [h, parseRes_nil]⟩
      · exact ⟨_, parseRes_of_two_le h⟩
    have pj : ∃ v, parseRes (newFormat j).1.Resolution = .ok v := by
      rcases lj with h | h
      · exact ⟨0, by rw [h, parseRes_nil]⟩
      · exact ⟨_, parseRes_of_two_le h⟩
    obtain ⟨x, hx⟩ := pi
    obtain ⟨y, hy⟩ := pj
    exact ⟨subInt x y, by rw [compareKey_res_eq, hx, hy]; rfl⟩
  · by_cases haud : key = FormatAudioBitrateKey
    · subst haud
      exact ⟨_, compareKey_audbr_eq _ _⟩
    · exact ⟨0, by simp only [Format.CompareKey, if_neg hres, if_neg haud]; rfl⟩

theorem compareKey_catalog_no_panic_witness :
    (160 : Int) ∈ formatKeys ∧ (140 : Int) ∈ formatKeys ∧
      (∃ v, (newFormat 160).1.CompareKey (newFormat 140).1 FormatResolutionKey = .ok v) :=
  ⟨by decide, by decide,
   (compareKey_catalog_no_panic 160 140 (by decide) (by decide) FormatResolutionKey).1⟩

theorem subInt_self (x : Int) : subInt x x = 0 := by
  unfold subInt
  rw [Int.sub_self]
  decide

/-- C12, what the code does: `CompareKey` of a `Format` with itself under
"res" returns 0 unless its `Resolution` label is one character long; on such
a label it panics on the slice `res[0:-1]` and returns nothing. -/
theorem compareKey_res_self (d : Format) :
    (d.Resolution.length ≠ 1 → d.CompareKey d FormatResolutionKey = .ok 0) ∧
      (d.Resolution.length = 1 → d.CompareKey d FormatResolutionKey = .error .sliceBounds) := by
  refine ⟨?_, ?_⟩
  · intro h
    rcases parseRes_cases d.Resolution with ⟨h1, _⟩ | ⟨v, hv⟩
    · exact absurd h1 h
    · rw [compareKey_res_eq, hv]
      show Except.ok (subInt v v) = _
      rw [subInt_self]
  · intro h
    rw [compareKey_res_eq, parseRes_of_length_one h]
    rfl

theorem compareKey_res_self_witness :
    ({ Itag := 18, Resolution := lit "p" } : Format).CompareKey
        { Itag := 18, Resolution := lit "p" } FormatResolutionKey = .error .sliceBounds ∧
      (newFormat 18).1.CompareKey (newFormat 18).1 FormatResolutionKey = .ok 0 :=
  ⟨(compareKey_res_self { Itag := 18, Resolution := lit "p" }).2 (by decide),
   (compareKey_res_self (newFormat 18).1).1 (by decide)⟩

/-! ## Swapping the arguments, and the sign of the result -/

theorem wrapInt_range (x : Int) : -(2 ^ 63) ≤ wrapInt x ∧ wrapInt x < 2 ^ 63 := by
  unfold wrapInt
  omega

theorem subInt_swap (x y : Int) : subInt y x = negInt (subInt x y) := by
  unfold subInt negInt wrapInt
  omega

theorem negInt_of_ne_min {x : Int} (h1 : -(2 ^ 63) < x) (h2 : x < 2 ^ 63) : negInt x = -x := by
  unfold negInt
  exact wrapInt_of_range (by omega) (by omega)

/-- The results of `CompareKey` on swapped arguments: either both calls
panic, or they return `x` and Go's `-x`, `x` lying in the range of `int`. -/
theorem compareKey_swap_cases (a b : Format) (key : FormatKey) :
    (∃ e1 e2, a.CompareKey b key = .error e1 ∧ b.CompareKey a key = .error e2) ∨
      ∃ x, a.CompareKey b key = .ok x ∧ b.CompareKey a key = .ok (negInt x) ∧
        -(2 ^ 63) ≤ x ∧ x < 2 ^ 63 := by
  by_cases hres : key = FormatResolutionKey
  · subst hres
    rw [compareKey_res_eq, compareKey_res_eq]
    rcases parseRes_cases a.Resolution with ⟨_, ha⟩ | ⟨x, ha⟩
    · rcases parseRes_cases b.Resolution with ⟨_, hb⟩ | ⟨y, hb⟩
      · exact Or.inl ⟨_, _, by rw [ha]; rfl, by rw [hb]; rfl⟩
      · exact Or.inl ⟨_, _, by rw [ha]; rfl, by rw [hb, ha]; rfl⟩
    · rcases parseRes_cases b.Resolution with ⟨_, hb⟩ | ⟨y, hb⟩
      · exact Or.inl ⟨_, _, by rw [ha, hb]; rfl, by rw [hb]; rfl⟩
      · refine Or.inr ⟨subInt x y, by rw [ha, hb]; rfl, ?_, wrapInt_range _⟩
        rw [ha, hb, ← subInt_swap]
        rfl
  · by_cases haud : key = FormatAudioBitrateKey
    · subst haud
      refine Or.inr ⟨_, compareKey_audbr_eq a b, ?_, wrapInt_range _⟩
      rw [compareKey_audbr_eq, ← subInt_swap]
    · refine Or.inr ⟨0, ?_, ?_, by decide, by decide⟩
      · simp only [Format.CompareKey, if_neg hres, if_neg haud]
        rfl
      · simp only [Format.CompareKey, if_neg hres, if_neg haud]
        rfl

/-- C13, the claim as stated fails: with `AudioBitrate` the least `int` in `a`
and 0 in `b`, `CompareKey` under "audbr" returns the least `int` for `(a, b)`
and for `(b, a)` alike: neither call panics, the second result is not the
negation of the first, and both are negative. -/
theorem compareKey_swap_min_int :
    ({ AudioBitrate := -9223372036854775808 } : Format).CompareKey
        { AudioBitrate := 0 } FormatAudioBitrateKey = .ok (-9223372036854775808) ∧
      ({ AudioBitrate := 0 } : Format).CompareKey
        { AudioBitrate := -9223372036854775808 } FormatAudioBitrateKey
          = .ok (-9223372036854775808) ∧
      (-9223372036854775808 : Int) ≠ -(-9223372036854775808) := by
  decide

/-- C13, amended: when `CompareKey a b key` returns `x` without a panic,
`CompareKey b a key` returns Go's `-x` (negation modulo `2^64`); unless `x` is
the least `int`, `-2^63`, that is the integer `-x`, so the sign flips. -/
theorem compareKey_swap (a b : Format) (key : FormatKey) (x : Int)
    (h : a.CompareKey b key = .ok x) :
    b.CompareKey a key = .ok (negInt x) ∧
      (x ≠ -(2 ^ 63) →
        b.CompareKey a key = .ok (-x) ∧ (x < 0 ↔ 0 < -x) ∧ (0 < x ↔ -x < 0)) := by
  rcases compareKey_swap_cases a b key with ⟨e1, _, h1, _⟩ | ⟨y, h1, h2, h3, h4⟩
  · rw [h1] at h
    cases h
  · rw [h1] at h
    cases h
    refine ⟨h2, fun hne => ⟨?_, by omega, by omega⟩⟩
    rw [h2, negInt_of_ne_min (by omega) h4]

theorem compareKey_swap_witness :
    (newFormat 18).1.CompareKey (newFormat 37).1 FormatResolutionKey = .ok (-72) ∧
      (newFormat 37).1.CompareKey (newFormat 18).1 FormatResolutionKey = .ok 72 ∧
      ((-72 : Int) < 0 ↔ (0 : Int) < 72) :=
  ⟨by decide,
   (((compareKey_swap (newFormat 18).1 (newFormat 37).1 FormatResolutionKey (-72)
      (by decide)).2 (by decide)).1).trans (by decide),
   by decide⟩

/-- C14, the claim as stated fails: with `AudioBitrate` the greatest `int` in
`a` and -1 in `b`, `a.AudioBitrate > b.AudioBitrate`, yet the subtraction
wraps and `CompareKey` under "audbr" returns the least `int`, a negative. -/
theorem compareKey_audbr_sign_overflow :
    ({ AudioBitrate := 9223372036854775807 } : Format).CompareKey
        { AudioBitrate := -1 } FormatAudioBitrateKey = .ok (-9223372036854775808) ∧
      (-9223372036854775808 : Int) < 0 ∧
      ({ AudioBitrate := -1 } : Format).AudioBitrate
        < ({ AudioBitrate := 9223372036854775807 } : Format).AudioBitrate := by
  decide

/-- C14, amended: for two `Format`s whose `AudioBitrate`s are machine
integers, `CompareKey` under "audbr" returns zero exactly when they are equal;
when their difference fits an `int` it is negative exactly when
`a.AudioBitrate < b.AudioBitrate` and positive exactly when
`a.AudioBitrate > b.AudioBitrate`. -/
theorem compareKey_audbr_sign (a b : Format)
    (ha : -(2 ^ 63) ≤ a.AudioBitrate ∧ a.AudioBitrate < 2 ^ 63)
    (hb : -(2 ^ 63) ≤ b.AudioBitrate ∧ b.AudioBitrate < 2 ^ 63) :
    ∃ r, a.CompareKey b FormatAudioBitrateKey = .ok r ∧
      (r = 0 ↔ a.AudioBitrate = b.AudioBitrate) ∧
      (-(2 ^ 63) ≤ a.AudioBitrate - b.AudioBitrate ∧ a.AudioBitrate - b.AudioBitrate < 2 ^ 63 →
        (r < 0 ↔ a.AudioBitrate < b.AudioBitrate) ∧
        (0 < r ↔ b.AudioBitrate < a.AudioBitrate)) := by
  refine ⟨_, compareKey_audbr_eq a b, ?_, ?_⟩
  · unfold subInt wrapInt
    omega
  · rintro ⟨h1, h2⟩
    rw [subInt, wrapInt_of_range h1 h2]
    omega

theorem compareKey_audbr_sign_witness :
    ∃ r, (newFormat 18).1.CompareKey (newFormat 22).1 FormatAudioBitrateKey = .ok r ∧
      (r = 0 ↔ (newFormat 18).1.AudioBitrate = (newFormat 22).1.AudioBitrate) ∧
      (-(2 ^ 63) ≤ (newFormat 18).1.AudioBitrate - (newFormat 22).1.AudioBitrate ∧
          (newFormat 18).1.AudioBitrate - (newFormat 22).1.AudioBitrate < 2 ^ 63 →
        (r < 0 ↔ (newFormat 18).1.AudioBitrate < (newFormat 22).1.AudioBitrate) ∧
        (0 < r ↔ (newFormat 22).1.AudioBitrate < (newFormat 18).1.AudioBitrate)) :=
  compareKey_audbr_sign (newFormat 18).1 (newFormat 22).1 (by decide) (by decide)

/-! ## The table `FORMATS` -/

/-- C15, what the table holds: two entries, not one, have an empty
`AudioEncoding` together with a nonzero `AudioBitrate`: id 82, whose literal
names no `AudioEncoding` and has `AudioBitrate` 96, and id 248 with
`AudioBitrate` 9. -/
theorem formats_empty_audenc_nonzero_audbr :
    (FORMATS.filter (fun p => decide (p.2.AudioEncoding = [] ∧ p.2.AudioBitrate ≠ 0))).map
        (fun p => (p.1, p.2.AudioBitrate)) = [(82, 96), (248, 9)] ∧
      (formatsIndex 82).map (fun e => (e.VideoEncoding, e.AudioEncoding, e.AudioBitrate))
        = some (lit "H.264", lit "", 96) ∧
      (formatsIndex 83).map (fun e => (e.VideoEncoding, e.AudioEncoding, e.AudioBitrate))
        = some (lit "H.264", lit "aac", 96) := by
  decide

/-- C16, what the table holds: every `AudioEncoding` is empty or one of the
four listed names, and every `VideoEncoding` is empty or one of the five
listed names except that of id 5, which is "Sorenson H.283" (id 6 has
"Sorenson H.263"). -/
theorem formats_codec_names :
    (FORMATS.filter (fun p => decide (¬ (p.2.VideoEncoding = [] ∨
        p.2.VideoEncoding ∈ videoCodecs)))).map (fun p => (p.1, p.2.VideoEncoding))
        = [(5, lit "Sorenson H.283")] ∧
      (FORMATS.filter (fun p => decide (¬ (p.2.AudioEncoding = [] ∨
        p.2.AudioEncoding ∈ audioCodecs)))).map Prod.fst = [] ∧
      (formatsIndex 6).map (fun e => e.VideoEncoding) = some (lit "Sorenson H.263") := by
  decide

/-- C17: every entry of `FORMATS` has a `Resolution` label that is empty or
one or more decimal digits followed by the single character 'p', and a
non-empty `Extension`. -/
theorem formats_label_shape (p : Int × Format) (h : p ∈ FORMATS) :
    (p.2.Resolution = [] ∨ IsDigitsP p.2.Resolution) ∧ p.2.Extension ≠ [] := by
  have hall : ∀ q ∈ FORMATS,
      (q.2.Resolution = [] ∨ IsDigitsP q.2.Resolution) ∧ q.2.Extension ≠ [] := by decide
  exact hall p h

theorem formats_label_shape_witness :
    ((22 : Int),
      ({ Extension := lit "mp4", Resolution := lit "720p", VideoEncoding := lit "H.264", AudioEncoding := lit "aac", Itag := 22, AudioBitrate := 192 } : Format)) ∈ FORMATS ∧
      IsDigitsP (lit "720p") ∧ lit "mp4" ≠ [] :=
  ⟨by decide,
   (formats_label_shape
      (22, { Extension := lit "mp4", Resolution := lit "720p", VideoEncoding := lit "H.264", AudioEncoding := lit "aac", Itag := 22, AudioBitrate := 192 })
      (by decide)).1.resolve_left (by decide),
   by decide⟩

/-- C18, the claim as stated fails: the entry of id 13 has an empty
`Resolution` label and the `VideoEncoding` "MPEG-4 Visual". -/
theorem formats_13_label_empty_with_video :
    (formatsIndex 13).map (fun e => (e.Resolution, e.VideoEncoding))
        = some (lit "", lit "MPEG-4 Visual") ∧
      lit "MPEG-4 Visual" ≠ [] := by
  decide

/-- C18, amended: in every entry of `FORMATS` an empty `VideoEncoding` comes
with an empty `Resolution` label, and an empty `Resolution` label comes with
an empty `VideoEncoding` in every entry but that of id 13. -/
theorem formats_label_empty_iff (p : Int × Format) (h : p ∈ FORMATS) :
    (p.2.VideoEncoding = [] → p.2.Resolution = []) ∧
      (p.1 ≠ 13 → (p.2.Resolution = [] ↔ p.2.VideoEncoding = [])) := by
  have hall : ∀ q ∈ FORMATS, (q.2.VideoEncoding = [] → q.2.Resolution = []) ∧
      (q.1 ≠ 13 → (q.2.Resolution = [] ↔ q.2.VideoEncoding = [])) := by decide
  exact hall p h

theorem formats_label_empty_iff_witness :
    ((22 : Int),
      ({ Extension := lit "mp4", Resolution := lit "720p", VideoEncoding := lit "H.264", AudioEncoding := lit "aac", Itag := 22, AudioBitrate := 192 } : Format)) ∈ FORMATS ∧
      (lit "720p" = ([] : GoString) ↔ lit "H.264" = ([] : GoString)) :=
  ⟨by decide,
   (formats_label_empty_iff
      (22, { Extension := lit "mp4", Resolution := lit "720p", VideoEncoding := lit "H.264", AudioEncoding := lit "aac", Itag := 22, AudioBitrate := 192 })
      (by decide)).2 (by decide)⟩

theorem compareKey_res_only_label (a b : Format) :
    a.CompareKey b FormatResolutionKey =
      ({ Resolution := a.Resolution } : Format).CompareKey { Resolution := b.Resolution }
        FormatResolutionKey := rfl

theorem orderAgrees_spec {r1 r2 : GoString} (h : orderAgrees r1 r2 = true) :
    ∃ r, ({ Resolution := r1 } : Format).CompareKey { Resolution := r2 } FormatResolutionKey
        = .ok r ∧
      (r < 0 ↔ fullNumber r1 < fullNumber r2) ∧ (r = 0 ↔ fullNumber r1 = fullNumber r2) ∧
      (0 < r ↔ fullNumber r2 < fullNumber r1) := by
  unfold orderAgrees at h
  split at h
  · next r hr => exact ⟨r, hr, of_decide_eq_true h⟩
  · exact absurd h (by decide)

set_option maxRecDepth 100000 in
theorem formats_orderAgrees :
    ∀ p ∈ FORMATS, ∀ q ∈ FORMATS, orderAgrees p.2.Resolution q.2.Resolution = true := by
  decide

/-- C20: although `CompareKey` strips two trailing characters of a label
("360p" counts as 36), on the table it orders by the full resolution: for
every two entries of `FORMATS` it returns an integer that is negative, zero
or positive exactly when the full number before the 'p' of the first label
(0 for an empty label) is less than, equal to or greater than that of the
second. -/
theorem compareKey_res_catalog_order (p q : Int × Format) (hp : p ∈ FORMATS)
    (hq : q ∈ FORMATS) :
    ∃ r, p.2.CompareKey q.2 FormatResolutionKey = .ok r ∧
      (r < 0 ↔ fullNumber p.2.Resolution < fullNumber q.2.Resolution) ∧
      (r = 0 ↔ fullNumber p.2.Resolution = fullNumber q.2.Resolution) ∧
      (0 < r ↔ fullNumber q.2.Resolution < fullNumber p.2.Resolution) := by
  rw [compareKey_res_only_label]
  exact orderAgrees_spec (formats_orderAgrees p hp q hq)

theorem compareKey_res_catalog_order_witness :
    ((18 : Int),
      ({ Extension := lit "mp4", Resolution := lit "360p", VideoEncoding := lit "H.264", AudioEncoding := lit "aac", Itag := 18, AudioBitrate := 96 } : Format)) ∈ FORMATS ∧
    ((37 : Int),
      ({ Extension := lit "mp4", Resolution := lit "1080p", VideoEncoding := lit "H.264", AudioEncoding := lit "aac", Itag := 37, AudioBitrate := 192 } : Format)) ∈ FORMATS ∧
    parseRes (lit "360p") = .ok 36 ∧ fullNumber (lit "360p") = 360 ∧
    parseRes (lit "1080p") = .ok 108 ∧ fullNumber (lit "1080p") = 1080 ∧
    ∃ r, ({ Resolution := lit "360p" } : Format).CompareKey { Resolution := lit "1080p" }
        FormatResolutionKey = .ok r ∧ r < 0 := by
  obtain ⟨r, hr, hlt, _, _⟩ := compareKey_res_catalog_order
    (18, { Extension := lit "mp4", Resolution := lit "360p", VideoEncoding := lit "H.264", AudioEncoding := lit "aac", Itag := 18, AudioBitrate := 96 })
    (37, { Extension := lit "mp4", Resolution := lit "1080p", VideoEncoding := lit "H.264", AudioEncoding := lit "aac", Itag := 37, AudioBitrate := 192 })
    (by decide) (by decide)
  exact ⟨by decide, by decide, by decide, by decide, by decide, by decide, r, hr,
    hlt.2 (by decide)⟩

/-! ## Independence of the metadata maps -/

/-- No entry of `FORMATS` holds a metadata map. -/
theorem formats_meta_nil : ∀ p ∈ FORMATS, p.2.meta = none := by decide

theorem formatsIndex_mem {id : Int} {e : Format} (h : formatsIndex id = some e) :
    (id, e) ∈ FORMATS := by
  unfold formatsIndex at h
  obtain ⟨l1, l2, hl, _⟩ := List.lookup_eq_some_iff.1 h
  rw [hl]
  simp

/-- What `newFormatRef` returns when it finds the id. -/
theorem newFormatRef_found {s s1 : Store} {f : FormatRef} {i : Int}
    (h : newFormatRef s i = ((f, true), s1)) :
    ∃ e, formatsIndex i = some e ∧ e.meta = none ∧ f.meta = some s.next ∧
      s1 = s.make.2 ∧
      (∀ t : Store, f.deref t = { e with meta := some (t.cell s.next) }) := by
  unfold newFormatRef formatsIndexRef at h
  cases he : formatsIndex i with
  | none =>
    rw [he] at h
    simp at h
  | some e =>
    rw [he] at h
    simp only [Option.map_some', Prod.mk.injEq, and_true] at h
    obtain ⟨hf, hs⟩ := h
    have hm := formats_meta_nil (i, e) (formatsIndex_mem he)
    refine ⟨e, rfl, hm, ?_, hs.symm, ?_⟩
    · rw [← hf]
      rfl
    · intro t
      rw [← hf]
      rfl

/-- The store-passing `newFormat` returns what `newFormat` returns. -/
theorem newFormatRef_deref (s : Store) (i : Int) :
    (newFormatRef s i).1.1.deref (newFormatRef s i).2 = (newFormat i).1 ∧
      (newFormatRef s i).1.2 = (newFormat i).2 := by
  unfold newFormatRef formatsIndexRef newFormat
  cases he : formatsIndex i with
  | none => exact ⟨rfl, rfl⟩
  | some e =>
    refine ⟨?_, rfl⟩
    simp [FormatRef.deref, Store.make]
theorem valueForKey_of_meta {g : Format} {key : FormatKey} (hkey : key ∉ wellKnownKeys)
    {m : GoMap} (hm : g.meta = some m) : g.ValueForKey key = mapIndex m key := by
  rw [valueForKey_default g hkey, hm]

theorem valueForKey_with_meta (e : Format) (m : GoMap) {key : FormatKey}
    (hkey : key ∉ wellKnownKeys) :
    ({ e with meta := some m } : Format).ValueForKey key = mapIndex m key :=
  valueForKey_of_meta hkey rfl

/-- C19: two calls of `newFormat` (for the same or for different ids of the
table) return `Format`s whose metadata maps are distinct objects: a value
stored under a key in the map of one is read back through that one, while the
other reads as before (nil under that key), whichever of the two is written;
a `Format` that a later call returns reads nil as well, and every entry of
`FORMATS` holds the nil map before and after. -/
theorem newFormat_bags_independent (s s1 s2 : Store) (f1 f2 : FormatRef) (i j : Int)
    (h1 : newFormatRef s i = ((f1, true), s1)) (h2 : newFormatRef s1 j = ((f2, true), s2))
    (key : FormatKey) (hkey : key ∉ wellKnownKeys) (v : Value) :
    f1.deref s2 = (newFormat i).1 ∧ f2.deref s2 = (newFormat j).1 ∧
      ∃ t1 t2, f1.setMeta s2 key v = some t1 ∧ f2.setMeta s2 key v = some t2 ∧
        (f1.deref t1).ValueForKey key = v ∧
        f2.deref t1 = f2.deref s2 ∧ (f2.deref t1).ValueForKey key = Value.nil ∧
        (f2.deref t2).ValueForKey key = v ∧
        f1.deref t2 = f1.deref s2 ∧ (f1.deref t2).ValueForKey key = Value.nil ∧
        (∀ l : Int, l ∈ formatKeys →
          (newFormatRef t1 l).1.2 = true ∧
          ((newFormatRef t1 l).1.1.deref (newFormatRef t1 l).2).ValueForKey key = Value.nil ∧
          (f1.deref (newFormatRef t1 l).2).ValueForKey key = v ∧
          f2.deref (newFormatRef t1 l).2 = f2.deref s2) ∧
        (∀ (k : Int) (e : FormatRef), formatsIndexRef k = some e →
          e.meta = none ∧ e.deref t1 = e.deref s ∧ e.deref t2 = e.deref s) := by
  obtain ⟨e1, he1, _, hm1, hs1, hd1⟩ := newFormatRef_found h1
  obtain ⟨e2, he2, _, hm2, hs2, hd2⟩ := newFormatRef_found h2
  have hn1 : s1.next = s.next + 1 := by rw [hs1]; rfl
  have hc2 : ∀ a, s2.cell a = if a = s.next + 1 then [] else if a = s.next then [] else s.cell a := by
    intro a
    rw [hs2, hs1]
    rfl
  have hn2 : s2.next = s.next + 2 := by rw [hs2, hs1]; rfl
  have hne : s.next + 1 ≠ s.next := by omega
  have hcA : s2.cell s.next = [] := by rw [hc2]; simp
  have hcB : s2.cell (s.next + 1) = [] := by rw [hc2]; simp
  have hnew1 : (newFormat i).1 = { e1 with meta := some [] } := by
    simp only [newFormat, he1]
  have hnew2 : (newFormat j).1 = { e2 with meta := some [] } := by
    simp only [newFormat, he2]
  have hf1 : f1.deref s2 = (newFormat i).1 := by rw [hd1, hcA, hnew1]
  have hf2 : f2.deref s2 = (newFormat j).1 := by rw [hd2, hn1, hcB, hnew2]
  have hnil1 : (f1.deref s2).ValueForKey key = Value.nil := by
    rw [hf1, hnew1, valueForKey_with_meta _ _ hkey]
    rfl
  have hnil2 : (f2.deref s2).ValueForKey key = Value.nil := by
    rw [hf2, hnew2, valueForKey_with_meta _ _ hkey]
    rfl
  refine ⟨hf1, hf2,
    { s2 with cell := fun b => if b = s.next then mapStore (s2.cell s.next) key v else s2.cell b },
    { s2 with cell := fun b =>
        if b = s.next + 1 then mapStore (s2.cell (s.next + 1)) key v else s2.cell b },
    ?_, ?_, ?_, ?_, ?_, ?_, ?_, ?_, ?_, ?_⟩
  · simp only [FormatRef.setMeta, hm1]
  · simp only [FormatRef.setMeta, hm2, hn1]
  · rw [hd1, valueForKey_with_meta _ _ hkey]
    simp only [if_true]
    exact mapIndex_mapStore _ _ _
  · rw [hd2, hd2, hn1]
    simp only [if_neg hne]
  · rw [hd2, hn1]
    simp only [if_neg hne]
    rw [← hn1, ← hd2]
    exact hnil2
  · rw [hd2, hn1, valueForKey_with_meta _ _ hkey]
    simp only [if_true]
    exact mapIndex_mapStore _ _ _
  · rw [hd1, hd1]
    simp only [if_neg hne.symm]
  · rw [hd1]
    simp only [if_neg hne.symm]
    rw [← hd1]
    exact hnil1
  · intro l hl
    obtain ⟨e3, he3⟩ := formatsIndex_isSome_of_mem hl
    have hne2 : s.next ≠ s2.next := by omega
    have hne3 : s.next + 1 ≠ s2.next := by omega
    refine ⟨?_, ?_, ?_, ?_⟩
    · simp only [newFormatRef, formatsIndexRef, he3, Option.map_some']
    · simp only [newFormatRef, formatsIndexRef, he3, Option.map_some']
      have hm : ∀ g : Format, g.meta = some [] → g.ValueForKey key = Value.nil :=
        fun g hg => (valueForKey_of_meta hkey hg).trans rfl
      apply hm
      simp [FormatRef.deref, Store.make]
    · rw [hd1, valueForKey_with_meta _ _ hkey]
      simp only [newFormatRef, formatsIndexRef, he3, Option.map_some']
      simp only [Store.make, if_neg hne2, if_true]
      exact mapIndex_mapStore _ _ _
    · rw [hd2, hd2, hn1]
      simp only [newFormatRef, formatsIndexRef, he3, Option.map_some']
      simp only [Store.make, if_neg hne3, if_neg hne]
  · intro k e hk
    unfold formatsIndexRef at hk
    cases hke : formatsIndex k with
    | none =>
      rw [hke] at hk
      simp at hk
    | some e0 =>
      rw [hke] at hk
      simp only [Option.map_some', Option.some.injEq] at hk
      rw [← hk]
      exact ⟨rfl, rfl, rfl⟩

theorem newFormat_bags_independent_witness :
    ∃ t1, (newFormatRef Store.empty 18).1.1.setMeta
        (newFormatRef (newFormatRef Store.empty 18).2 18).2 (lit "url")
        (Value.str (lit "u")) = some t1 ∧
      ((newFormatRef Store.empty 18).1.1.deref t1).ValueForKey (lit "url")
        = Value.str (lit "u") ∧
      ((newFormatRef (newFormatRef Store.empty 18).2 18).1.1.deref t1).ValueForKey (lit "url")
        = Value.nil := by
  obtain ⟨_, _, t1, _, ht1, _, hv, _, hn, _⟩ :=
    newFormat_bags_independent Store.empty (newFormatRef Store.empty 18).2
      (newFormatRef (newFormatRef Store.empty 18).2 18).2
      (newFormatRef Store.empty 18).1.1
      (newFormatRef (newFormatRef Store.empty 18).2 18).1.1 18 18 rfl rfl
      (lit "url") (by decide) (Value.str (lit "u"))
  exact ⟨t1, ht1, hv, hn⟩

end Ytdl
